import Mathlib

/-!
Verification of the organization layer of an end-to-end encrypted
credential-vault service.  The `Org` and `OrgMember` definitions below are a
shallow embedding of `packages/core/src/api.ts`; the shared-container, group,
vault, encoding and crypto-provider layers they depend on live outside the
sources at hand and are modelled from the specification, as marked on each
definition.  Randomness is made explicit: every operation that generates key
material takes and returns a `Nat` entropy counter, and fresh keys are drawn
deterministically from it.
-/

namespace Padloc

/-- Byte strings are modelled as lists of naturals. -/
abbrev Bytes := List Nat

/-- Error codes thrown by the core (spec section 7).  `providerError` stands
for a raw exception escaping the crypto provider (e.g. signing with an
undefined key), which the source does not convert to a named code. -/
inductive ErrorCode where
  | insufficientPermissions
  | missingAccess
  | keyMismatch
  | decryptionFailed
  | providerError
deriving DecidableEq

/-- Modelled from the spec: the crypto provider (section 4.1) is an external
collaborator.  Keys are drawn deterministically from an entropy counter; an
RSA public key is tagged `0`, its matching private key is tagged `1`. -/
def Provider.pubKey (s : Nat) : Bytes := [0, s]

/-- Modelled from the spec: the RSA private key matching `Provider.pubKey s`. -/
def Provider.privKey (s : Nat) : Bytes := [1, s]

/-- Modelled from the spec: a fresh symmetric (AEAD) data key. -/
def Provider.symKey (s : Nat) : Bytes := [2, s]

/-- Modelled from the spec: a fresh HMAC key (used as the org invites key). -/
def Provider.hmacKey (s : Nat) : Bytes := [3, s]

/-- Modelled from the spec: the public key corresponding to a private key, as
mathematics relates the two halves of an RSA pair. -/
def Provider.pairedPub (priv : Bytes) : Bytes :=
  match priv with
  | 1 :: r => 0 :: r
  | _ => []

/-- Modelled from the spec: an RSA-wrapped symmetric key, `rsaWrap(pub, key)`.
The symbolic blob records the wrapping public key and the wrapped key. -/
structure WrappedKey where
  pub : Bytes
  key : Bytes
deriving DecidableEq

/-- Modelled from the spec: `rsaWrap` of the crypto provider. -/
def Provider.wrap (pub k : Bytes) : WrappedKey := ⟨pub, k⟩

/-- Modelled from the spec: `rsaUnwrap(priv, blob)` succeeds exactly when the
blob was wrapped under the public key matching `priv`; failure is the
distinguished `none` result (section 4.1). -/
def Provider.unwrap (priv : Bytes) (w : WrappedKey) : Option Bytes :=
  if w.pub = Provider.pairedPub priv then some w.key else none

/-- Modelled from the spec: `sign(priv, msg, params)` of the crypto provider.
The symbolic signature determines the signing key, the scheme parameters and
the message. -/
def Provider.sign (priv msg : Bytes) (p : Nat) : Bytes := priv ++ p :: msg

/-- Modelled from the spec: `verify(pub, sig, msg, params)`.  Verification
succeeds exactly on signatures produced with the matching private key over the
same message and parameters.  A malformed public key makes the primitive throw,
modelled as `Except.error` (the source wraps the call in a try/catch). -/
def Provider.verify (pub sig msg : Bytes) (p : Nat) : Except Unit Bool :=
  match pub with
  | 0 :: r => .ok (decide (sig = 1 :: r ++ p :: msg))
  | _ => .error ()

/-- An accessor reference as presented to a container: id plus public key. -/
structure Accessor where
  id : String
  publicKey : Bytes
deriving DecidableEq

/-- Modelled from the spec (section 4.5): one row of a container's accessor
table: accessor id, the stored public-key fingerprint (modelled as the key
itself) and the data key wrapped under that key. -/
structure AccessorEntry where
  id : String
  publicKey : Bytes
  wrappedKey : WrappedKey
deriving DecidableEq

/-- Modelled from the spec: an AEAD-sealed payload; the symbolic ciphertext
records the data key it was sealed under and the plaintext, and opening with
any other key fails. -/
structure SealedData where
  key : Bytes
  plaintext : Bytes
deriving DecidableEq

/-- Modelled from the spec (section 4.5): the shared-container state: the
in-memory data key (absent until `access` or key generation), the encrypted
payload, and the accessor table. -/
structure SharedContainer where
  key : Option Bytes := none
  encryptedData : Option SealedData := none
  accessors : List AccessorEntry := []
deriving DecidableEq

/-- Modelled from the spec (section 4.5): replace the accessor table, wrapping
the data key (generated fresh if absent) for every accessor in the list. -/
def SharedContainer.updateAccessors (c : SharedContainer) (list : List Accessor)
    (n : Nat) : SharedContainer × Nat :=
  let k := c.key.getD (Provider.symKey n)
  (⟨some k, c.encryptedData,
    list.map fun a => ⟨a.id, a.publicKey, Provider.wrap a.publicKey k⟩⟩,
   if c.key.isSome then n else n + 1)

/-- Modelled from the spec (section 4.5): seal a plaintext under the data key,
generating the key first if absent. -/
def SharedContainer.setData (c : SharedContainer) (p : Bytes) (n : Nat) :
    SharedContainer × Nat :=
  let k := c.key.getD (Provider.symKey n)
  (⟨some k, some ⟨k, p⟩, c.accessors⟩, if c.key.isSome then n else n + 1)

/-- Modelled from the spec (sections 4.5 and 7): look up the accessor's table
entry (`missingAccess` if absent), check the stored fingerprint against the
presented public key (`keyMismatch` if different), and unwrap the data key with
the accessor's private key (`decryptionFailed` if unwrapping fails). -/
def SharedContainer.access (c : SharedContainer) (acc : Accessor) (priv : Bytes) :
    Except ErrorCode SharedContainer :=
  match c.accessors.find? (fun e => e.id == acc.id) with
  | none => .error .missingAccess
  | some e =>
    if e.publicKey = acc.publicKey then
      match Provider.unwrap priv e.wrappedKey with
      | none => .error .decryptionFailed
      | some k => .ok ⟨some k, c.encryptedData, c.accessors⟩
    else .error .keyMismatch

/-- Modelled from the spec (sections 4.5 and 7): return the plaintext; requires
the data key in memory, and AEAD open failure surfaces as `decryptionFailed`. -/
def SharedContainer.getData (c : SharedContainer) : Except ErrorCode Bytes :=
  match c.key, c.encryptedData with
  | some k, some s => if s.key = k then .ok s.plaintext else .error .decryptionFailed
  | _, _ => .error .missingAccess

/-- Modelled from the spec (section 4.6): a group is a shared container whose
payload is its private key; it also carries an id, a name, a public key and an
optional org-issued signature over the public key. -/
structure Group where
  id : String := ""
  name : String := ""
  cont : SharedContainer := {}
  publicKey : Option Bytes := none
  privateKey : Option Bytes := none
  signedPublicKey : Option Bytes := none
deriving DecidableEq

/-- A group presented as an accessor of another container. -/
def Group.toAccessor (g : Group) : Accessor := ⟨g.id, g.publicKey.getD []⟩

/-- Modelled from the spec: membership of a group is presence in its accessor
table (used by `Org.isAdmin` in the source). -/
def Group.isMember (g : Group) (id : String) : Bool :=
  g.cont.accessors.any fun e => e.id == id

/-- Modelled from the spec (section 4.6): replace the group's accessor table. -/
def Group.updateAccessors (g : Group) (list : List Accessor) (n : Nat) :
    Group × Nat :=
  let r := g.cont.updateAccessors list n
  ({g with cont := r.1}, r.2)

/-- Modelled from the spec (section 4.6): `generateKeys` creates a fresh RSA
pair and stores the private key as the container payload. -/
def Group.generateKeys (g : Group) (n : Nat) : Group × Nat :=
  let pub := Provider.pubKey n
  let priv := Provider.privKey n
  let r := g.cont.setData priv (n + 1)
  ({g with publicKey := some pub, privateKey := some priv, cont := r.1}, r.2)

/-- Modelled from the spec (section 4.6): accessing a group unlocks its
container through one of its accessors and loads the group private key from
the decrypted payload. -/
def Group.access (g : Group) (a : Accessor) (priv : Bytes) :
    Except ErrorCode Group := do
  let c ← g.cont.access a priv
  let d ← c.getData
  .ok {g with cont := c, privateKey := some d}

/-- Modelled from the spec (section 3): the slice of an account the org layer
uses: identity fields plus the long-term RSA pair. -/
structure Account where
  id : String
  name : String
  email : String
  publicKey : Bytes
  privateKey : Bytes
deriving DecidableEq

/-- An account presented as an accessor. -/
def Account.toAccessor (a : Account) : Accessor := ⟨a.id, a.publicKey⟩

/-- The shape `Org.addMember` takes in the source: id, name, email, public key. -/
structure MemberInfo where
  id : String
  name : String
  email : String
  publicKey : Bytes
deriving DecidableEq

/-- The member-info view of an account. -/
def Account.toMemberInfo (a : Account) : MemberInfo :=
  ⟨a.id, a.name, a.email, a.publicKey⟩

/-- An org member record (`OrgMember` in the source).  `signedPublicKey` is an
unset (`!:`) field before the org signs the member, hence an `Option`. -/
structure OrgMember where
  id : String := ""
  name : String := ""
  email : String := ""
  publicKey : Bytes := []
  signedPublicKey : Option Bytes := none
deriving DecidableEq

/-- The argument shape of `Org.verify` in the source (`OrgMember | Group`):
a public key plus an optional signature over it. -/
structure Subject where
  publicKey : Bytes
  signedPublicKey : Option Bytes
deriving DecidableEq

/-- The subject view of a member. -/
def OrgMember.toSubject (m : OrgMember) : Subject := ⟨m.publicKey, m.signedPublicKey⟩

/-- The subject view of a group. -/
def Group.toSubject (g : Group) : Subject := ⟨g.publicKey.getD [], g.signedPublicKey⟩

/-- Modelled from the spec (section 6): the base64 wire encoding of a binary
field; the codec is external, stable, and round-trips byte-identically. -/
structure Base64String where
  data : Bytes
deriving DecidableEq

/-- Modelled from the spec (section 6): base64 encoding of raw bytes. -/
def bytesToBase64 (b : Bytes) : Base64String := ⟨b⟩

/-- Modelled from the spec (section 6): base64 decoding. -/
def base64ToBytes (s : Base64String) : Bytes := s.data

/-- The marshaled form of an `OrgMember`: string fields plus base64-encoded
binary fields, as emitted by `OrgMember.toRaw` in the source.  The `email`
field travels through the base `Serializable` field map (the source
destructures it into `rest` and hands it to `super.fromRaw`). -/
structure SerializedOrgMember where
  id : String
  name : String
  email : String
  publicKey : Base64String
  signedPublicKey : Base64String
deriving DecidableEq

/-- `OrgMember.toRaw` from the source: base64-encode the binary fields on top
of the base field map.  Serializing a member whose `signedPublicKey` was never
set throws in the source (`bytesToBase64` of `undefined`), modelled as `none`. -/
def OrgMember.toRaw (m : OrgMember) : Option SerializedOrgMember :=
  m.signedPublicKey.map fun sig =>
    ⟨m.id, m.name, m.email, bytesToBase64 m.publicKey, bytesToBase64 sig⟩

/-- `OrgMember.fromRaw` from the source: decode the base64 binary fields and
assign the string fields (`email` via the base `Serializable` assignment). -/
def OrgMember.fromRaw (r : SerializedOrgMember) : OrgMember :=
  ⟨r.id, r.name, r.email, base64ToBytes r.publicKey, some (base64ToBytes r.signedPublicKey)⟩

/-- Modelled from the spec (sections 4.8 and 6): the org payload marshals
`{privateKey, invitesKey}`; the external codec is injective and round-trips,
modelled with a length prefix. -/
def marshalOrgPayload (pk ik : Bytes) : Bytes := pk.length :: (pk ++ ik)

/-- Modelled from the spec (section 6): decode the org payload. -/
def unmarshalOrgPayload (b : Bytes) : Bytes × Bytes :=
  match b with
  | n :: rest => (rest.take n, rest.drop n)
  | [] => ([], [])

/-- Modelled from the spec (section 4.7): a vault is a shared container with a
name and an id-only org back-reference. -/
structure Vault where
  id : String := ""
  name : String := ""
  org : String := ""
  cont : SharedContainer := {}
deriving DecidableEq

/-- Modelled from the spec (section 4.7): replace the vault's accessor table. -/
def Vault.updateAccessors (v : Vault) (list : List Accessor) (n : Nat) :
    Vault × Nat :=
  let r := v.cont.updateAccessors list n
  ({v with cont := r.1}, r.2)

/-- The `Org` class of the source: a shared container (flattened here into the
`cont` field) plus identity, the signing keypair and invites key (in-memory,
absent until generated or loaded), members, groups, vault summaries, and the
distinguished admin and everyone groups. -/
structure Org where
  id : String := ""
  name : String := ""
  publicKey : Option Bytes := none
  privateKey : Option Bytes := none
  invitesKey : Option Bytes := none
  signingParams : Nat := 0
  members : List OrgMember := []
  groups : List Group := []
  vaults : List (String × String) := []
  adminGroup : Group := {}
  everyoneGroup : Group := {}
  cont : SharedContainer := {}
deriving DecidableEq

/-- A freshly constructed org, as the class field initializers leave it. -/
def Org.newOrg (i nm : String) : Org := {id := i, name := nm}

/-- `Org.getMember` from the source: first member with the given account id. -/
def Org.getMember (o : Org) (id : String) : Option OrgMember :=
  o.members.find? fun m => m.id == id

/-- `Org.getMembersForGroup` from the source: map each accessor-table row to
the member with that id, then drop the lookups that found nothing. -/
def Org.getMembersForGroup (o : Org) (g : Group) : List OrgMember :=
  (g.cont.accessors.map fun e => o.getMember e.id).reduceOption

/-- `Org.isAdmin` from the source. -/
def Org.isAdmin (o : Org) (id : String) : Bool := o.adminGroup.isMember id

/-- `Org.generateKeys` from the source: generate the invites HMAC key and the
org RSA signing pair, and seal `{privateKey, invitesKey}` as the org payload. -/
def Org.generateKeys (o : Org) (n : Nat) : Org × Nat :=
  let ik := Provider.hmacKey n
  let pub := Provider.pubKey (n + 1)
  let priv := Provider.privKey (n + 1)
  let r := o.cont.setData (marshalOrgPayload priv ik) (n + 2)
  ({o with
      invitesKey := some ik
      privateKey := some priv
      publicKey := some pub
      cont := r.1}, r.2)

/-- `Org.access` from the source: unlock the admin group via the account, then
unlock the org container via the admin group, and if a payload is present load
`privateKey` and `invitesKey` from it. -/
def Org.access (o : Org) (a : Account) : Except ErrorCode Org := do
  let ag ← o.adminGroup.access a.toAccessor a.privateKey
  let c ← o.cont.access ag.toAccessor (ag.privateKey.getD [])
  let o1 := {o with adminGroup := ag, cont := c}
  match c.encryptedData with
  | none => .ok o1
  | some _ => do
    let d ← c.getData
    let pr := unmarshalOrgPayload d
    .ok {o1 with privateKey := some pr.1, invitesKey := some pr.2}

/-- `Org.addMember` from the source: without the org private key in memory the
call fails with `insufficientPermissions`; otherwise the new member's public
key is signed, the member is appended, and the everyone group's accessor table
is replaced with the updated member list. -/
def Org.addMember (o : Org) (m : MemberInfo) (n : Nat) :
    Except ErrorCode (Org × Nat) :=
  match o.privateKey with
  | none => .error .insufficientPermissions
  | some priv =>
    let mem : OrgMember :=
      ⟨m.id, m.name, m.email, m.publicKey,
       some ( Provider.sign priv m.publicKey o.signingParams)⟩
    let members := o.members ++ [mem]
    let r := o.everyoneGroup.updateAccessors (members.map fun x => ⟨x.id, x.publicKey⟩) n
    .ok ({o with members := members, everyoneGroup := r.1}, r.2)

/-- `Org.sign` from the source, applied to a group: attach
`signedPublicKey = sign(orgPrivate, publicKey, signingParams)`.  Signing with
the org private key or the group public key missing makes the provider throw,
which propagates (modelled as `providerError`). -/
def Org.signGroup (o : Org) (g : Group) : Except ErrorCode Group :=
  match o.privateKey, g.publicKey with
  | some priv, some pub =>
    .ok {g with signedPublicKey := some ( Provider.sign priv pub o.signingParams)}
  | _, _ => .error .providerError

/-- `Org.verify` from the source: `false` when `signedPublicKey` is absent;
otherwise call the provider and swallow any exception, leaving `false`. -/
def Org.verify (o : Org) (s : Subject) : Bool :=
  match s.signedPublicKey with
  | none => false
  | some sig =>
    match o.publicKey with
    | none => false
    | some pub =>
      match Provider.verify pub sig s.publicKey o.signingParams with
      | .ok b => b
      | .error _ => false

/-- `Org.initialize` from the source: make the account the sole accessor of the
admin group, generate the admin group keys, make the admin group the sole
accessor of the org, generate the org keys, add the account as a member,
generate the everyone group keys, and sign both groups. -/
def Org.initialize (o : Org) (a : Account) (n : Nat) :
    Except ErrorCode (Org × Nat) := do
  let r1 := o.adminGroup.updateAccessors [a.toAccessor] n
  let r2 := r1.1.generateKeys r1.2
  let r3 := o.cont.updateAccessors [r2.1.toAccessor] r2.2
  let o1 := {o with adminGroup := r2.1, cont := r3.1}
  let r4 := o1.generateKeys r3.2
  let (o3, n5) ← r4.1.addMember a.toMemberInfo r4.2
  let r6 := o3.everyoneGroup.generateKeys n5
  let o4 := {o3 with everyoneGroup := r6.1}
  let ag ← o4.signGroup o4.adminGroup
  let eg ← o4.signGroup o4.everyoneGroup
  .ok ({o4 with adminGroup := ag, everyoneGroup := eg}, r6.2)

/-- `Org.createVault` from the source: build a vault named `nm` with the org id
as back-reference and the admin group as sole accessor.  The source drops the
constructed vault (no return statement); the embedding returns it so its state
can be observed. -/
def Org.createVault (o : Org) (nm : String) (n : Nat) : Vault × Nat :=
  let v : Vault := {name := nm, org := o.id}
  v.updateAccessors [o.adminGroup.toAccessor] n

/-- Modelled from the spec (sections 5 and 6): a freshly loaded org instance
holds no in-memory secrets — serialized state excludes data keys and the
in-memory `privateKey`/`invitesKey`; `lock` clears them, modelling reload. -/
def Org.lock (o : Org) : Org :=
  {o with
    privateKey := none
    invitesKey := none
    cont := {o.cont with key := none}
    adminGroup := {o.adminGroup with
      privateKey := none
      cont := {o.adminGroup.cont with key := none}}
    everyoneGroup := {o.everyoneGroup with
      privateKey := none
      cont := {o.everyoneGroup.cont with key := none}}}

/-- The invariant relating the everyone group to the member list: its accessor
table lists exactly the members, by id and public key. -/
def Org.everyoneAligned (o : Org) : Prop :=
  o.everyoneGroup.cont.accessors.map (fun e => (e.id, e.publicKey)) =
    o.members.map fun m => (m.id, m.publicKey)

/-- Flip bit `j` of byte `i` of a byte string. -/
def flipBit (bs : Bytes) (i j : Nat) : Bytes :=
  bs.set i ((bs.getD i 0) ^^^ (2 ^ j))

/-- Concrete account used to exercise the theorems on explicit inputs. -/
def acctA : Account :=
  ⟨"a1", "Alice", "alice@example.com", Provider.pubKey 100, Provider.privKey 100⟩

/-- A second concrete account. -/
def acctB : Account :=
  ⟨"b1", "Bob", "bob@example.com", Provider.pubKey 200, Provider.privKey 200⟩

/-- The org obtained by initializing a fresh org with `acctA` and entropy 0. -/
def orgAfterInit : Org :=
  match Org.initialize (Org.newOrg "o1" "Acme") acctA 0 with
  | .ok r => r.1
  | .error _ => Org.newOrg "" ""

/-- A concrete org-signed member (signing key `[1, 7]`, scheme `0`). -/
def mW : OrgMember :=
  ⟨"a1", "Alice", "alice@example.com", [5, 6], some ( Provider.sign [1, 7] [5, 6] 0)⟩

/-- A concrete org holding `mW`, with signing public key `[0, 7]`. -/
def oW : Org := {Org.newOrg "o9" "W" with publicKey := some [0, 7], members := [mW]}

/-- A group whose accessor table names `mW` and one id with no member. -/
def gW : Group :=
  {id := "g1",
   cont := {accessors := [⟨"a1", [5, 6], Provider.wrap [5, 6] [2, 0]⟩,
                          ⟨"ghost", [9], Provider.wrap [9] [2, 0]⟩]}}

/-- A group whose accessor table names only ids of current members of `oW`. -/
def gW2 : Group :=
  {id := "g2", cont := {accessors := [⟨"a1", [5, 6], Provider.wrap [5, 6] [2, 0]⟩]}}

/-- An org whose signing public key is malformed, so the verify primitive
throws on it. -/
def oBad : Org := {Org.newOrg "ob" "Bad" with publicKey := some [5]}

/-- A subject carrying some signature, verified against `oBad`. -/
def sBad : Subject := ⟨[2], some [9]⟩

/-- A subject with no signature at all. -/
def sNone : Subject := ⟨[1], none⟩

/-- A concrete container: data key `[2, 9]` in memory, a payload sealed under
the different key `[2, 8]`, and one accessor entry for id `"x"`. -/
def contW : SharedContainer :=
  {key := some [2, 9], encryptedData := some ⟨[2, 8], [1, 2, 3]⟩,
   accessors := [⟨"x", [0, 4], Provider.wrap [0, 4] [2, 9]⟩]}

/-- The org obtained from `orgAfterInit` by adding `acctB` as a member. -/
def orgAfterAdd : Org :=
  match Org.addMember orgAfterInit acctB.toMemberInfo 7 with
  | .ok r => r.1
  | .error _ => Org.newOrg "" ""

/-- The org obtained by re-accessing a freshly loaded copy of `orgAfterInit`. -/
def orgAccessed : Org :=
  match Org.access ( Org.lock orgAfterInit) acctA with
  | .ok o => o
  | .error _ => Org.newOrg "" ""

theorem xor_two_pow_ne (x j : Nat) : x ^^^ 2 ^ j ≠ x := by
  intro h
  have h2 : x ^^^ (x ^^^ 2 ^ j) = x ^^^ x := by rw [h]
  rw [← Nat.xor_assoc, Nat.xor_self, Nat.zero_xor] at h2
  have hp : 0 < 2 ^ j := pow_pos (by decide) j
  omega

theorem flipBit_ne (bs : Bytes) (i j : Nat) (h : i < bs.length) :
    flipBit bs i j ≠ bs := by
  intro he
  have he' : List.set bs i ((bs.getD i 0) ^^^ (2 ^ j)) = bs := he
  have h1 : i < (List.set bs i ((bs.getD i 0) ^^^ (2 ^ j))).length := by
    simpa using h
  have hgd : (List.set bs i ((bs.getD i 0) ^^^ (2 ^ j))).getD i 0 =
      (bs.getD i 0) ^^^ (2 ^ j) := by
    rw [List.getD_eq_getElem?_getD, List.getElem?_eq_getElem h1]
    simp [List.getElem_set_self]
  have hc := congrArg (fun l => List.getD l i 0) he'
  simp only at hc
  rw [hgd] at hc
  exact xor_two_pow_ne (bs.getD i 0) j hc

/-- Claim C1 (counterexample): immediately after `Org.initialize` the org
private key generated during initialization is still in memory, so
`Org.addMember` succeeds without any prior `Org.access` — it does not fail
with `insufficientPermissions` as the claim states. -/
theorem addMember_after_init_succeeds :
    Org.initialize (Org.newOrg "o1" "Acme") acctA 0 = .ok (orgAfterInit, 7) ∧
    orgAfterInit.privateKey = some (Provider.privKey 4) ∧
    (Org.addMember orgAfterInit acctB.toMemberInfo 7).isOk = true :=
  ⟨rfl, rfl, rfl⟩

/-- Claim C1 (amended): `Org.addMember` fails with `insufficientPermissions`
exactly in the states where the org private key is absent from memory; and
after `Org.initialize` on a fresh org, an instance that has not loaded its
secrets (a freshly deserialized copy, modelled by `Org.lock`) fails
`insufficientPermissions` on `Org.addMember` without a prior `Org.access`. -/
theorem addMember_without_privateKey_fails :
    (∀ (o : Org) (m : MemberInfo) (n : Nat), o.privateKey = none →
      Org.addMember o m n = .error ErrorCode.insufficientPermissions) ∧
    (∀ (i nm : String) (a : Account) (n : Nat) (o' : Org) (n' : Nat)
      (m : MemberInfo) (k : Nat),
      Org.initialize (Org.newOrg i nm) a n = .ok (o', n') →
      Org.addMember ( Org.lock o') m k = .error ErrorCode.insufficientPermissions) := by
  refine ⟨fun o m n h => ?_, fun i nm a n o' n' m k _ => rfl⟩
  simp [Org.addMember, h]

/-- Witness for the amended claim C1 at concrete inputs. -/
theorem addMember_without_privateKey_fails_witness :
    ((Org.newOrg "w" "W").privateKey = none ∧
      Org.addMember (Org.newOrg "w" "W") acctB.toMemberInfo 0 =
        .error ErrorCode.insufficientPermissions) ∧
    ( Org.initialize (Org.newOrg "o1" "Acme") acctA 0 = .ok (orgAfterInit, 7) ∧
      Org.addMember ( Org.lock orgAfterInit) acctB.toMemberInfo 7 =
        .error ErrorCode.insufficientPermissions) :=
  ⟨⟨rfl, addMember_without_privateKey_fails.1 (Org.newOrg "w" "W") acctB.toMemberInfo 0 rfl⟩,
   ⟨rfl, addMember_without_privateKey_fails.2 "o1" "Acme" acctA 0 orgAfterInit 7
      acctB.toMemberInfo 7 rfl⟩⟩

/-- Claim C2: initializing a fresh org with account `a` leaves: `a` as the sole
accessor of the admin group; the admin group keypair generated, with the
private key held in the admin group's payload whose data key is wrapped under
`a`'s public key; the org container's accessor table exactly `[adminGroup]`;
the org payload storing `{privateKey, invitesKey}` matching the in-memory
signing key and invites key; `a` recorded as an org member; the everyone group
holding keys; and both distinguished groups carrying a `signedPublicKey`. -/
theorem org_setup_spec (i nm : String) (a : Account) (n : Nat) :
    ∃ o' n', Org.initialize (Org.newOrg i nm) a n = .ok (o', n') ∧
      o'.adminGroup.cont.accessors =
        [⟨a.id, a.publicKey, Provider.wrap a.publicKey (Provider.symKey n)⟩] ∧
      o'.adminGroup.publicKey = some (Provider.pubKey (n + 1)) ∧
      o'.adminGroup.cont.encryptedData =
        some ⟨Provider.symKey n, Provider.privKey (n + 1)⟩ ∧
      o'.cont.accessors.map (fun e => (e.id, e.publicKey)) =
        [(o'.adminGroup.id, o'.adminGroup.publicKey.getD [])] ∧
      (∃ pk ik k, o'.privateKey = some pk ∧ o'.invitesKey = some ik ∧
        o'.cont.encryptedData = some ⟨k, marshalOrgPayload pk ik⟩) ∧
      o'.members.map (fun m => (m.id, m.name, m.email, m.publicKey)) =
        [(a.id, a.name, a.email, a.publicKey)] ∧
      o'.everyoneGroup.publicKey.isSome = true ∧
      o'.everyoneGroup.privateKey.isSome = true ∧
      o'.adminGroup.signedPublicKey.isSome = true ∧
      o'.everyoneGroup.signedPublicKey.isSome = true :=
  ⟨_, _, rfl, rfl, rfl, rfl, rfl, ⟨_, _, _, rfl, rfl, rfl⟩, rfl, rfl, rfl, rfl, rfl⟩

/-- Claim C7: `Org.createVault name` constructs a vault named `name`, whose org
back-reference is the org's id, and whose accessor table is exactly the one
entry for the admin group. -/
theorem createVault_spec (o : Org) (nm : String) (n : Nat) :
    (Org.createVault o nm n).1.name = nm ∧
    (Org.createVault o nm n).1.org = o.id ∧
    (Org.createVault o nm n).1.cont.accessors =
      [⟨o.adminGroup.id, o.adminGroup.publicKey.getD [],
        Provider.wrap (o.adminGroup.publicKey.getD []) (Provider.symKey n)⟩] :=
  ⟨rfl, rfl, rfl⟩

/-- Claim C8: serializing an `OrgMember` whose fields are all set and
deserializing the result restores the member exactly, the binary fields
surviving the base64 encode/decode byte-identically. -/
theorem orgMember_roundTrip (m : OrgMember) (r : SerializedOrgMember)
    (h : OrgMember.toRaw m = some r) : OrgMember.fromRaw r = m := by
  cases m with
  | mk id name email pk sig =>
    cases sig with
    | none => simp [OrgMember.toRaw] at h
    | some s =>
      simp [OrgMember.toRaw] at h
      subst h
      rfl

/-- Witness for claim C8 at a concrete member. -/
theorem orgMember_roundTrip_witness :
    OrgMember.toRaw mW = some ⟨"a1", "Alice", "alice@example.com",
      bytesToBase64 [5, 6], bytesToBase64 ( Provider.sign [1, 7] [5, 6] 0)⟩ ∧
    OrgMember.fromRaw ⟨"a1", "Alice", "alice@example.com",
      bytesToBase64 [5, 6], bytesToBase64 ( Provider.sign [1, 7] [5, 6] 0)⟩ = mW :=
  ⟨rfl, orgMember_roundTrip mW _ rfl⟩

/-- Claim C9: `Org.verify` is a total boolean function (its type here is
`Bool`, with no error channel): a subject without `signedPublicKey` yields
`false`, and a throwing verify primitive — including the case of a missing org
public key — is caught and yields `false`. -/
theorem org_verify_total (o : Org) (s : Subject) :
    (s.signedPublicKey = none → Org.verify o s = false) ∧
    (∀ sig pub, s.signedPublicKey = some sig → o.publicKey = some pub →
      Provider.verify pub sig s.publicKey o.signingParams = .error () →
      Org.verify o s = false) ∧
    (o.publicKey = none → Org.verify o s = false) := by
  refine ⟨fun h => ?_, fun sig pub h1 h2 h3 => ?_, fun h => ?_⟩
  · simp [Org.verify, h]
  · simp [Org.verify, h1, h2, h3]
  · cases hs : s.signedPublicKey <;> simp [Org.verify, h, hs]

/-- Witness for claim C9 at concrete inputs. -/
theorem org_verify_total_witness :
    (sNone.signedPublicKey = none ∧ Org.verify oBad sNone = false) ∧
    (sBad.signedPublicKey = some [9] ∧ oBad.publicKey = some [5] ∧
      Provider.verify [5] [9] sBad.publicKey oBad.signingParams = .error () ∧
      Org.verify oBad sBad = false) :=
  ⟨⟨rfl, (org_verify_total oBad sNone).1 rfl⟩,
   ⟨rfl, rfl, rfl, (org_verify_total oBad sBad).2.1 [9] [5] rfl rfl rfl⟩⟩

/-- Claim C5: a member whose `signedPublicKey` was produced by the org's sign
operation (signing key matching the org's signing public key) verifies, and
flipping any bit of any byte of its public key makes `Org.verify` return
`false`. -/
theorem org_verify_members (o : Org) (m : OrgMember) (r : Bytes)
    (_hm : m ∈ o.members)
    (hpub : o.publicKey = some (0 :: r))
    (hsig : m.signedPublicKey =
      some ( Provider.sign (1 :: r) m.publicKey o.signingParams)) :
    Org.verify o ( OrgMember.toSubject m) = true ∧
    ∀ i j, i < m.publicKey.length →
      Org.verify o ( OrgMember.toSubject
        {m with publicKey := flipBit m.publicKey i j}) = false := by
  constructor
  · simp [Org.verify, OrgMember.toSubject, hsig, hpub, Provider.verify, Provider.sign]
  · intro i j hi
    have hne := flipBit_ne m.publicKey i j hi
    simp [Org.verify, OrgMember.toSubject, hsig, hpub, Provider.verify, Provider.sign]
    intro hEq
    exact hne hEq.symm

/-- Witness for claim C5 at a concrete org and member. -/
theorem org_verify_members_witness :
    mW ∈ oW.members ∧
    oW.publicKey = some (0 :: [7]) ∧
    mW.signedPublicKey = some ( Provider.sign (1 :: [7]) mW.publicKey oW.signingParams) ∧
    ( Org.verify oW ( OrgMember.toSubject mW) = true ∧
      ∀ i j, i < mW.publicKey.length →
        Org.verify oW ( OrgMember.toSubject
          {mW with publicKey := flipBit mW.publicKey i j}) = false) :=
  ⟨List.mem_singleton.mpr rfl, rfl, rfl,
   org_verify_members oW mW [7] (List.mem_singleton.mpr rfl) rfl rfl⟩

/-- Claim C6 (counterexample): `Org.verify` is an org operation that invokes
the signature-verify primitive; at this input the primitive fails
(`Except.error`), yet the failure is recovered locally into the normal boolean
result `false` instead of surfacing as `decryptionFailed` or `keyMismatch`. -/
theorem verify_recovers_locally_cex :
    Provider.verify [5] [9] [2] 0 = .error () ∧
    sBad.signedPublicKey = some [9] ∧
    sBad.publicKey = [2] ∧
    oBad.publicKey = some [5] ∧
    Org.verify oBad sBad = false :=
  ⟨rfl, rfl, rfl, rfl, rfl⟩

/-- Claim C6 (amended): unwrap and AEAD-open failures inside container
operations are never recovered locally — they surface as `keyMismatch` (stored
fingerprint differs from the presented key) or `decryptionFailed` (unwrap or
AEAD open fails) — but a signature-verify failure inside `Org.verify` is
caught locally and converted into the boolean result `false`. -/
theorem crypto_failure_propagation :
    (∀ (c : SharedContainer) (acc : Accessor) (priv : Bytes) (e : AccessorEntry),
      c.accessors.find? (fun x => x.id == acc.id) = some e →
      e.publicKey ≠ acc.publicKey →
      SharedContainer.access c acc priv = .error ErrorCode.keyMismatch) ∧
    (∀ (c : SharedContainer) (acc : Accessor) (priv : Bytes) (e : AccessorEntry),
      c.accessors.find? (fun x => x.id == acc.id) = some e →
      e.publicKey = acc.publicKey →
      Provider.unwrap priv e.wrappedKey = none →
      SharedContainer.access c acc priv = .error ErrorCode.decryptionFailed) ∧
    (∀ (c : SharedContainer) (k : Bytes) (s : SealedData),
      c.key = some k → c.encryptedData = some s → s.key ≠ k →
      SharedContainer.getData c = .error ErrorCode.decryptionFailed) ∧
    (∀ (o : Org) (s : Subject) (sig pub : Bytes),
      s.signedPublicKey = some sig → o.publicKey = some pub →
      Provider.verify pub sig s.publicKey o.signingParams = .error () →
      Org.verify o s = false) := by
  refine ⟨fun c acc priv e hf hne => ?_, fun c acc priv e hf hpk hw => ?_,
    fun c k s hk he hne => ?_, fun o s sig pub h1 h2 h3 => ?_⟩
  · simp [SharedContainer.access, hf, hne]
  · simp [SharedContainer.access, hf, hpk, hw]
  · simp [SharedContainer.getData, hk, he, hne]
  · simp [Org.verify, h1, h2, h3]

/-- Witness for the amended claim C6 at concrete containers and org. -/
theorem crypto_failure_propagation_witness :
    (contW.accessors.find? (fun x => x.id == "x") =
        some ⟨"x", [0, 4], Provider.wrap [0, 4] [2, 9]⟩ ∧
      SharedContainer.access contW ⟨"x", [0, 5]⟩ [1, 4] =
        .error ErrorCode.keyMismatch) ∧
    (Provider.unwrap [1, 5] (Provider.wrap [0, 4] [2, 9]) = none ∧
      SharedContainer.access contW ⟨"x", [0, 4]⟩ [1, 5] =
        .error ErrorCode.decryptionFailed) ∧
    (contW.key = some [2, 9] ∧ contW.encryptedData = some ⟨[2, 8], [1, 2, 3]⟩ ∧
      SharedContainer.getData contW = .error ErrorCode.decryptionFailed) ∧
    (Provider.verify [5] [9] [2] 0 = .error () ∧ Org.verify oBad sBad = false) :=
  ⟨⟨by decide, crypto_failure_propagation.1 contW ⟨"x", [0, 5]⟩ [1, 4]
      ⟨"x", [0, 4], Provider.wrap [0, 4] [2, 9]⟩ (by decide) (by decide)⟩,
   ⟨by decide, crypto_failure_propagation.2.1 contW ⟨"x", [0, 4]⟩ [1, 5]
      ⟨"x", [0, 4], Provider.wrap [0, 4] [2, 9]⟩ (by decide) (by decide) (by decide)⟩,
   ⟨rfl, rfl, crypto_failure_propagation.2.2.1 contW [2, 9] ⟨[2, 8], [1, 2, 3]⟩
      rfl rfl (by decide)⟩,
   ⟨rfl, crypto_failure_propagation.2.2.2 oBad sBad [9] [5] rfl rfl rfl⟩⟩

theorem reduceOption_map {α β : Type} (l : List α) (f : α → Option β) :
    (l.map f).reduceOption = l.filterMap f := by
  simp [List.reduceOption, List.filterMap_map]

theorem getMember_of_covered (o : Org) (idv : String)
    (h : ∃ m ∈ o.members, m.id = idv) :
    ∃ m', Org.getMember o idv = some m' ∧ m'.id = idv := by
  obtain ⟨mm, hmm, hid⟩ := h
  have hsome : (o.members.find? fun m => m.id == idv).isSome :=
    List.find?_isSome.mpr ⟨mm, hmm, by simp [hid]⟩
  obtain ⟨m', hm'⟩ := Option.isSome_iff_exists.mp hsome
  have hp := List.find?_some hm'
  exact ⟨m', hm', by simpa using hp⟩

theorem filterMap_getMember_ids (o : Org) :
    ∀ (l : List AccessorEntry),
    (∀ e ∈ l, ∃ m ∈ o.members, m.id = e.id) →
    ((l.filterMap fun e => Org.getMember o e.id).map fun m => m.id) =
      l.map fun e => e.id := by
  intro l
  induction l with
  | nil => intro _; rfl
  | cons e l ih =>
    intro hcov
    obtain ⟨m', hm', hid⟩ := getMember_of_covered o e.id (hcov e (List.mem_cons_self e l))
    simp [List.filterMap_cons, hm', hid,
      ih fun x hx => hcov x (List.mem_cons_of_mem e hx)]

/-- Claim C10: `Org.getMembersForGroup` returns exactly the member records
whose id appears in the group's accessor table, in accessor-table order, and
accessor entries matching no current member are silently dropped (the function
is total; part one gives the exact `filterMap` characterization, part two
soundness, part three exactness-in-order when every entry names a member). -/
theorem getMembersForGroup_spec :
    (∀ (o : Org) (g : Group), Org.getMembersForGroup o g =
      g.cont.accessors.filterMap fun e => Org.getMember o e.id) ∧
    (∀ (o : Org) (g : Group) (m : OrgMember), m ∈ Org.getMembersForGroup o g →
      m ∈ o.members ∧ ∃ e ∈ g.cont.accessors, e.id = m.id) ∧
    (∀ (o : Org) (g : Group),
      (∀ e ∈ g.cont.accessors, ∃ m ∈ o.members, m.id = e.id) →
      (( Org.getMembersForGroup o g).map fun m => m.id) =
        g.cont.accessors.map fun e => e.id) := by
  have hchar : ∀ (o : Org) (g : Group), Org.getMembersForGroup o g =
      g.cont.accessors.filterMap fun e => Org.getMember o e.id :=
    fun o g => reduceOption_map _ _
  refine ⟨hchar, fun o g m hm => ?_, fun o g hcov => ?_⟩
  · rw [hchar] at hm
    obtain ⟨e, he, hfind⟩ := List.mem_filterMap.mp hm
    have hfind' : List.find? (fun x => x.id == e.id) o.members = some m := hfind
    refine ⟨List.mem_of_find?_eq_some hfind', e, he, ?_⟩
    have hp := List.find?_some hfind'
    have : m.id = e.id := by simpa using hp
    exact this.symm
  · rw [hchar]
    exact filterMap_getMember_ids o g.cont.accessors hcov

/-- Witness for claim C10 at a concrete org and groups (the `"ghost"` accessor
entry of `gW` matches no member and is silently dropped). -/
theorem getMembersForGroup_spec_witness :
    Org.getMembersForGroup oW gW =
      (gW.cont.accessors.filterMap fun e => Org.getMember oW e.id) ∧
    Org.getMembersForGroup oW gW = [mW] ∧
    (mW ∈ Org.getMembersForGroup oW gW ∧
      (mW ∈ oW.members ∧ ∃ e ∈ gW.cont.accessors, e.id = mW.id)) ∧
    ((∀ e ∈ gW2.cont.accessors, ∃ m ∈ oW.members, m.id = e.id) ∧
      (( Org.getMembersForGroup oW gW2).map fun m => m.id) =
        gW2.cont.accessors.map fun e => e.id) :=
  ⟨getMembersForGroup_spec.1 oW gW, by decide,
   ⟨by decide, getMembersForGroup_spec.2.1 oW gW mW (by decide)⟩,
   ⟨by decide, getMembersForGroup_spec.2.2 oW gW2 (by decide)⟩⟩

/-- Claim C3: the everyone-group/member-set alignment is established by
initialization and preserved by every mutating org operation: `Org.addMember`
signs the new member's public key, appends it to `members`, and resets the
everyone group's accessor table to exactly the updated member list; `Org.access`
and `Org.generateKeys` leave members and the everyone group's table unchanged
(`Org.createVault` does not touch org state, and the read-only operations
cannot affect it). -/
theorem everyone_matches_members :
    (∀ (o : Org) (a : Account) (n : Nat) (o' : Org) (n' : Nat),
      Org.initialize o a n = .ok (o', n') → Org.everyoneAligned o') ∧
    (∀ (o : Org) (m : MemberInfo) (n : Nat) (o' : Org) (n' : Nat),
      Org.addMember o m n = .ok (o', n') →
      Org.everyoneAligned o' ∧
      ∃ priv, o.privateKey = some priv ∧
        o'.members = o.members ++
          [⟨m.id, m.name, m.email, m.publicKey,
            some ( Provider.sign priv m.publicKey o.signingParams)⟩]) ∧
    (∀ (o : Org) (a : Account) (o' : Org),
      Org.access o a = .ok o' → Org.everyoneAligned o → Org.everyoneAligned o') ∧
    (∀ (o : Org) (n : Nat),
      Org.everyoneAligned o → Org.everyoneAligned (Org.generateKeys o n).1) := by
  refine ⟨?_, ?_, ?_, ?_⟩
  · intro o a n o' n' h
    injection h with h1
    injection h1 with h2 h3
    subst h2
    simp [Org.everyoneAligned, Org.signGroup, Org.generateKeys, Group.generateKeys,
      Group.updateAccessors, SharedContainer.updateAccessors, SharedContainer.setData,
      Provider.wrap, List.map_map]
  · intro o m n o' n' h
    cases hpk : o.privateKey with
    | none => simp [Org.addMember, hpk] at h
    | some priv =>
      simp only [Org.addMember, hpk] at h
      injection h with h1
      injection h1 with h2 h3
      subst h2
      refine ⟨?_, priv, rfl, rfl⟩
      simp [Org.everyoneAligned, Group.updateAccessors, SharedContainer.updateAccessors,
        Provider.wrap, List.map_map]
  · intro o a o' h ha
    cases hag : Group.access o.adminGroup (Account.toAccessor a) a.privateKey with
    | error e => simp [Org.access, hag, Bind.bind, Except.bind] at h
    | ok ag =>
      cases hc : SharedContainer.access o.cont (Group.toAccessor ag)
          (ag.privateKey.getD []) with
      | error e => simp [Org.access, hag, hc, Bind.bind, Except.bind] at h
      | ok c =>
        cases henc : c.encryptedData with
        | none =>
          simp [Org.access, hag, hc, henc, Bind.bind, Except.bind] at h
          subst h
          exact ha
        | some sd =>
          cases hgd : SharedContainer.getData c with
          | error e => simp [Org.access, hag, hc, henc, hgd, Bind.bind, Except.bind] at h
          | ok d =>
            simp [Org.access, hag, hc, henc, hgd, Bind.bind, Except.bind] at h
            subst h
            exact ha
  · intro o n ha
    exact ha

/-- Witness for claim C3 at concrete orgs. -/
theorem everyone_matches_members_witness :
    ( Org.initialize (Org.newOrg "o1" "Acme") acctA 0 = .ok (orgAfterInit, 7) ∧
      Org.everyoneAligned orgAfterInit) ∧
    (Org.addMember orgAfterInit acctB.toMemberInfo 7 = .ok (orgAfterAdd, 7) ∧
      Org.everyoneAligned orgAfterAdd) ∧
    (Org.access ( Org.lock orgAfterInit) acctA = .ok orgAccessed ∧
      Org.everyoneAligned ( Org.lock orgAfterInit) ∧
      Org.everyoneAligned orgAccessed) :=
  ⟨⟨rfl, everyone_matches_members.1 (Org.newOrg "o1" "Acme") acctA 0 orgAfterInit 7 rfl⟩,
   ⟨rfl, (everyone_matches_members.2.1 orgAfterInit acctB.toMemberInfo 7
      orgAfterAdd 7 rfl).1⟩,
   ⟨rfl, rfl, everyone_matches_members.2.2.1 ( Org.lock orgAfterInit) acctA
      orgAccessed rfl rfl⟩⟩

/-- Claim C4: for an account that is the admin-group accessor, `Org.access`
on a freshly loaded org instance succeeds: it unlocks the admin group via the
account (the admin private key is back in memory), unlocks the org container
via the admin group (the data key is back in memory), and loads `privateKey`
and `invitesKey` equal to the values stored in the org's encrypted payload. -/
theorem org_access_unlocks (i nm idA nmA em : String) (s n : Nat) :
    ∃ o' n',
      Org.initialize (Org.newOrg i nm)
        ⟨idA, nmA, em, Provider.pubKey s, Provider.privKey s⟩ n = .ok (o', n') ∧
      ( Org.access ( Org.lock o')
          ⟨idA, nmA, em, Provider.pubKey s, Provider.privKey s⟩).isOk = true ∧
      ( Org.access ( Org.lock o')
          ⟨idA, nmA, em, Provider.pubKey s, Provider.privKey s⟩).map
        (fun x => (x.adminGroup.privateKey.isSome, x.cont.key.isSome)) =
        .ok (true, true) ∧
      ( Org.access ( Org.lock o')
          ⟨idA, nmA, em, Provider.pubKey s, Provider.privKey s⟩).map
        (fun x => (x.cont.encryptedData, x.privateKey, x.invitesKey)) =
        .ok (some ⟨Provider.symKey (n + 2),
              marshalOrgPayload (Provider.privKey (n + 4)) (Provider.hmacKey (n + 3))⟩,
             some (Provider.privKey (n + 4)), some (Provider.hmacKey (n + 3))) := by
  refine ⟨_, _, rfl, ?_, ?_, ?_⟩
  all_goals
    simp [Org.access, Org.lock, Group.access, Group.toAccessor, Account.toAccessor,
      SharedContainer.access, SharedContainer.getData, Provider.unwrap,
      Provider.pairedPub, Provider.wrap, unmarshalOrgPayload, marshalOrgPayload,
      List.find?, Bind.bind, Except.bind, Except.map, Except.isOk, Except.toBool,
      Provider.pubKey, Provider.privKey, Provider.symKey, Provider.hmacKey,
      List.take, List.drop, Org.newOrg, Org.generateKeys, Org.signGroup,
      Org.addMember, Account.toMemberInfo, Group.generateKeys, Group.updateAccessors,
      SharedContainer.updateAccessors, SharedContainer.setData]

end Padloc
